import Mathlib

/-!
Verification of the benchmark sweep-and-cache orchestration of the
`qfc_benchmark` repository (`do_benchmark.py`), against its specification.

The external collaborators (numpy, the QFC/QTC codec library, zarr's byte-level
encoding, scipy filtering) are abstracted: quantities that the Python code
obtains from those libraries (quantization scale factors, the bytes physically
written by an encode pass into a throwaway memory store, the measured residual
standard deviation, the mean of three timing trials, the sampling frequency
stored in the archive) are inputs to the embedded functions.  Everything the
repository's own code computes — path construction, the cache-hit/mismatch
decision, codec selection and validation, chunk-shape derivation, the byte-size
sum excluding metadata, attribute assembly, the sweep loops and record
construction, and store-removal safety checks — is translated directly.

Python floats are modelled as rationals (ℚ); where Python raises
(`ValueError`, `ZeroDivisionError`, user aborts) the embedding returns
`Except.error`.  I/O on the persistent zarr archive is recorded as an explicit
event trace.
-/

namespace QfcBenchmark

/-- Python's `str.startswith`, evaluated on the character lists (Lean's
built-in `String.startsWith` is irreducible for the kernel). -/
def list_starts_with : List Char → List Char → Bool
  | _, [] => true
  | [], _ :: _ => false
  | c :: cs, d :: ds => c = d && list_starts_with cs ds

/-- Python's `s.startswith(pat)`. -/
def str_starts_with (s pat : String) : Bool :=
  list_starts_with s.data pat.data

/-- The storage key produced by `get_compressed_path`.  In Python this is the
string `compressed/{alg}/{compression_method}/{target_residual_stdev}/compressed_{lowcut}-{highcut}_{compression_level}`;
since the six interpolated components occupy disjoint, `/`- and `_`-separated
positions, the key is modelled as the tuple of its components (two keys are
equal iff all components agree). -/
structure CompressedPath where
  alg : String
  compression_method : String
  target_residual_stdev : ℚ
  lowcut : ℚ
  highcut : ℚ
  compression_level : Int
deriving DecidableEq

/-- Embedding of `get_compressed_path` of `do_benchmark.py` (lines 205-228). -/
def get_compressed_path (lowcut highcut : ℚ) (alg : String)
    (compression_method : String) (target_residual_stdev : ℚ)
    (compression_level : Int) : CompressedPath :=
  { alg := alg
    compression_method := compression_method
    target_residual_stdev := target_residual_stdev
    lowcut := lowcut
    highcut := highcut
    compression_level := compression_level }

/-- The compressor object handed to `create_dataset`.  The codec constructors
record exactly the arguments the Python code passes; their internal encoding
behaviour is external to this repository. -/
inductive Codec where
  | qfc (quant_scale_factor : ℚ) (compression_method : String)
      (segment_length : Int) (zstd_level : Int) (zlib_level : Int)
  | qtc (quant_scale_factor : ℚ) (compression_method : String)
      (zstd_level : Int) (zlib_level : Int)
  | blosc_zstd (clevel : Int)
  | zlib (level : Int)
deriving DecidableEq

/-- The attribute dictionary attached to a compressed dataset.  Fields that
`do_compress` sets only conditionally are `Option`s (absent = `none`). -/
structure Attrs where
  compression_time_sec : Option ℚ
  compression_ratio : Option ℚ
  residual_stdev : Option ℚ
  segment_length_sec : Option ℚ
  lowcut : ℚ
  highcut : ℚ
  alg : String
  compression_method : String
  target_residual_stdev : ℚ
  zstd_level : Option Int
  zlib_level : Option Int
deriving DecidableEq

/-- A compressed dataset stored in the zarr archive: the codec it was created
with and its attribute dictionary. -/
structure Artifact where
  codec : Codec
  attrs : Attrs
deriving DecidableEq

/-- The part of the persistent zarr archive that `do_compress` touches: the
`sampling_frequency` root attribute and the datasets under `compressed/...`
keys. -/
structure Store where
  sampling_frequency : ℚ
  entries : List (CompressedPath × Artifact)
deriving DecidableEq

/-- Lookup `path in z` / `z[path]` on the archive. -/
def Store.find (st : Store) (p : CompressedPath) : Option Artifact :=
  match st.entries.find? (fun kv => kv.1 = p) with
  | some kv => some kv.2
  | none => none

/-- Deletion `z.__delitem__(path)`. -/
def Store.erase (st : Store) (p : CompressedPath) : Store :=
  { st with entries := st.entries.filter (fun kv => ¬ kv.1 = p) }

/-- Creation `z.create_dataset(path, ...)`. -/
def Store.insert (st : Store) (p : CompressedPath) (a : Artifact) : Store :=
  { st with entries := (p, a) :: st.entries }

/-- I/O actions that `do_compress` performs on the persistent archive, in
order. -/
inductive Event where
  | opened_store
  | deleted (p : CompressedPath)
  | created (p : CompressedPath)
deriving DecidableEq

/-- Embedding of `compute_size_of_zarr_store_excluding_meta` of `do_benchmark.py`
(lines 402-417): iterate the store's keys, skip keys starting with `"."`,
sum the byte lengths of the rest.  A raw byte store is a list of
(key, byte-length) pairs. -/
def compute_size_of_zarr_store_excluding_meta (store : List (String × Nat)) : Nat :=
  match store with
  | [] => 0
  | kv :: rest =>
      if str_starts_with kv.1 "." then  -- don't include .zattrs, etc
        compute_size_of_zarr_store_excluding_meta rest
      else
        kv.2 + compute_size_of_zarr_store_excluding_meta rest

/-- Embedding of `get_chunks_for_shape` of `do_benchmark.py` (lines 420-445).  Python's
`//` on nonnegative ints is `Nat.div`, except that `4_000_000 // 0` raises
`ZeroDivisionError`; a non-2D shape raises the function's own `Exception`. -/
def get_chunks_for_shape (shape : List Nat) : Except String (List Nat) :=
  match shape with
  | [t, num_channels] =>
      if num_channels = 0 then
        Except.error "ZeroDivisionError: integer division or modulo by zero"
      else
        let target_num_entries : Nat := 4000000
        let num_timepoints_per_chunk := target_num_entries / num_channels
        if t ≤ num_timepoints_per_chunk then
          Except.ok [t, num_channels]
        else if t ≤ num_timepoints_per_chunk * 2 then
          Except.ok [(t + 1) / 2, num_channels]
        else
          Except.ok [num_timepoints_per_chunk, num_channels]
  | _ => Except.error "Cannot get chunks for shape"

/-- The keyword arguments of `do_compress` (the `filtered_data` array itself is
abstracted; all quantities derived from it by external libraries live in
`Measurements`). -/
structure CompressParams where
  lowcut : ℚ
  highcut : ℚ
  alg : String
  compression_method : String
  target_residual_stdev : ℚ
  segment_length_sec : ℚ
  zstd_level : Int
  zlib_level : Int
  estimate_compression_time : Bool
  compute_compression_ratio : Bool
  compute_residual_stdev : Bool
deriving DecidableEq

/-- Results of the external-library calls that `do_compress` makes on the
in-memory array `X`: the estimated quantization scale factors, the mean of the
three timing trials, the (key, byte-length) contents of the throwaway memory
store after an encode pass, `X.size * X.itemsize`, and
`np.std(X - X_compressed)`. -/
structure Measurements where
  qfc_quant_scale_factor : ℚ
  qtc_quant_scale_factor : ℚ
  measured_time_sec : ℚ
  mem_store : List (String × Nat)
  x_total_bytes : Nat
  measured_residual_stdev : ℚ
deriving DecidableEq

/-- The attribute dictionary that `do_compress` attaches to a freshly created
dataset (`do_benchmark.py` lines 344-398; attribute insertion order is
irrelevant for a dict). -/
def fresh_attrs (p : CompressParams) (m : Measurements) : Attrs :=
  { compression_time_sec :=
      if p.estimate_compression_time then some m.measured_time_sec else none
    compression_ratio :=
      if CompressParams.compute_compression_ratio p then
        some ((m.x_total_bytes : ℚ) /
          (compute_size_of_zarr_store_excluding_meta m.mem_store : ℚ))
      else none
    residual_stdev :=
      if p.compute_residual_stdev then some m.measured_residual_stdev else none
    segment_length_sec :=
      if p.alg = "qfc" ∧ 0 < p.target_residual_stdev then
        some p.segment_length_sec
      else none
    lowcut := p.lowcut
    highcut := p.highcut
    alg := p.alg
    compression_method := p.compression_method
    target_residual_stdev := p.target_residual_stdev
    zstd_level :=
      if p.compression_method = "zstd" then some p.zstd_level else none
    zlib_level :=
      if p.compression_method = "zlib" then some p.zlib_level else none }

/-- Outcome of a `do_compress` call: the returned dataset (or the raised
error message), the archive afterwards, and the trace of archive I/O. -/
structure CompressOutcome where
  result : Except String Artifact
  store : Store
  events : List Event

/-- The storage key `do_compress` computes at lines 265-276: the
`compression_level` path component is the zstd level for `"zstd"`, the zlib
level for `"zlib"`, and `0` otherwise. -/
def compress_key (p : CompressParams) : CompressedPath :=
  get_compressed_path p.lowcut p.highcut p.alg p.compression_method
    p.target_residual_stdev
    (if p.compression_method = "zstd" then p.zstd_level
     else if p.compression_method = "zlib" then p.zlib_level else 0)

/-- The cache-validation flag `matches` computed at lines 282-287 for an
existing dataset `x`:  it is cleared for `alg == "qfc"` with zero target, and
for `alg == "qfc"` with positive target when the stored
`segment_length_sec` attribute differs from the requested one.  (When that
attribute is absent Python would raise `KeyError`; such a dataset is not
producible by `do_compress`, and the embedding treats the absent attribute as
a mismatch.) -/
def cache_matches (p : CompressParams) (x : Artifact) : Bool :=
  let m1 : Bool := ¬ (p.alg = "qfc" ∧ p.target_residual_stdev = 0)
  let m2 : Bool := ¬ (p.alg = "qfc" ∧ 0 < p.target_residual_stdev ∧
      x.attrs.segment_length_sec ≠ some p.segment_length_sec)
  m1 && m2

/-- Codec selection of `do_compress` (lines 297-333): for a positive target,
a QFC/QTC codec around an externally estimated scale factor (unknown `alg`
raises); otherwise a pure entropy codec — Blosc-zstd clamped to level 9, or
Zlib (unknown `compression_method` raises). -/
def select_codec (p : CompressParams) (m : Measurements)
    (segment_length : Int) : Except String Codec :=
  if 0 < p.target_residual_stdev then
    if p.alg = "qfc" then
      Except.ok (Codec.qfc m.qfc_quant_scale_factor
        p.compression_method segment_length p.zstd_level p.zlib_level)
    else if p.alg = "qtc" then
      Except.ok (Codec.qtc m.qtc_quant_scale_factor
        p.compression_method p.zstd_level p.zlib_level)
    else
      Except.error ("Invalid compression algorithm: " ++ p.alg)
  else
    -- note that numcodecs does not support zstd levels > 9
    if p.compression_method = "zstd" then
      Except.ok (Codec.blosc_zstd (min p.zstd_level 9))
    else if p.compression_method = "zlib" then
      Except.ok (Codec.zlib p.zlib_level)
    else
      Except.error ("Invalid compression method: " ++ p.compression_method)

/-- The fall-through part of `do_compress` (lines 294-399, after the cache
step): select a codec and `create_dataset` at the key with `fresh_attrs`
attached, given the archive `st` and I/O trace `ev` left by the cache step. -/
def do_compress_encode (p : CompressParams) (m : Measurements) (st : Store)
    (ev : List Event) : CompressOutcome :=
  let path := compress_key p
  -- segment_length = int(segment_length_sec * sampling_frequency)
  let segment_length : Int := ⌊p.segment_length_sec * st.sampling_frequency⌋
  match select_codec p m segment_length with
  | Except.error e => { result := Except.error e, store := st, events := ev }
  | Except.ok codec =>
      let ds : Artifact := { codec := codec, attrs := fresh_attrs p m }
      { result := Except.ok ds
        store := st.insert path ds
        events := ev ++ [Event.created path] }

/-- Embedding of `do_compress` of `do_benchmark.py` (lines 231-399).

Control flow, in source order:
1. compute the storage key (pure);
2. `open_zarr(zarr_path, mode="r+")` — the first I/O;
3. if a dataset exists at the key: return it when `cache_matches`, otherwise
   delete it and fall through;
4. select the codec (`select_codec`; an unknown `alg` or
   `compression_method` raises `ValueError` there);
5. `create_dataset` at the key and attach attributes (`fresh_attrs`). -/
def do_compress (p : CompressParams) (m : Measurements) (st : Store) :
    CompressOutcome :=
  let path := compress_key p
  -- z = open_zarr(zarr_path, mode="r+"): the first I/O, before any validation
  let ev0 : List Event := [Event.opened_store]
  match st.find path with
  | some x =>
      if cache_matches p x then
        -- "Compressed data already exists": return the dataset unchanged
        { result := Except.ok x, store := st, events := ev0 }
      else
        -- "Compressed data exists but with different parameters": delete it
        do_compress_encode p m (st.erase path) (ev0 ++ [Event.deleted path])
  | none => do_compress_encode p m st ev0

/-- Actions `remove_zarr_store` performs against the storage backend. -/
inductive RemoveEvent where
  | existence_check
  | removed
deriving DecidableEq

/-- Computation of `pp = "/".join(zarr_path.split("/")[2:])`: for a path starting with
`"r2://"` (the only use site) this is the path with its 5-character `r2://`
head removed, since `split("/")` puts `"r2:"` and `""` in the first two
slots. -/
def strip_r2 (s : String) : String := String.mk (s.data.drop 5)

/-- Embedding of `remove_zarr_store` of `do_benchmark.py` (lines 448-481).  `path_exists`
models `fs.exists(pp)` / `os.path.exists(zarr_path)` and `answer` the
`input(...)` reply.  The returned list is the trace of backend actions, in
order; a raised exception is `Except.error`. -/
def remove_zarr_store (zarr_path : String) (path_exists : Bool)
    (answer : String) : List RemoveEvent × Except String Unit :=
  if str_starts_with zarr_path "r2://" then
    if ¬ str_starts_with zarr_path "r2://neurosift/scratch/" then
      -- to be safe, only allow removing zarr stores in the scratch directory
      ([], Except.error ("Cannot remove zarr store: " ++ zarr_path))
    else
      let pp := strip_r2 zarr_path
      if ¬ path_exists then
        ([RemoveEvent.existence_check], Except.ok ())
      else if answer ≠ "y" then
        ([RemoveEvent.existence_check],
          Except.error ("User did not confirm removal of " ++ pp))
      else
        ([RemoveEvent.existence_check, RemoveEvent.removed], Except.ok ())
  else
    if path_exists then
      ([RemoveEvent.existence_check, RemoveEvent.removed], Except.ok ())
    else
      ([RemoveEvent.existence_check], Except.ok ())

/-- The `do_compress` keyword arguments passed by one sweep iteration of
`__main__` (lines 552-565): all three metric flags are `True`, and
`segment_length_sec` is left at its declared default `0.1`. -/
def sweep_params (lowcut highcut : ℚ) (zstd_level zlib_level : Int)
    (alg compression_method : String) (target : ℚ) : CompressParams :=
  { lowcut := lowcut
    highcut := highcut
    alg := alg
    compression_method := compression_method
    target_residual_stdev := target
    segment_length_sec := 1 / 10
    zstd_level := zstd_level
    zlib_level := zlib_level
    estimate_compression_time := true
    compute_compression_ratio := true
    compute_residual_stdev := true }

/-- One row of benchmark output, as assembled by `__main__`
(lines 569-581). -/
structure MeasurementRecord where
  alg : String
  compression_method : String
  target_residual_stdev : Option ℚ
  residual_stdev : Option ℚ
  compression_ratio : Option ℚ
  compression_time_sec : Option ℚ
  lowcut : ℚ
  highcut : ℚ
  compression_level : Int
deriving DecidableEq

/-- The record `__main__` appends for the dataset `ds` returned by
`do_compress` (lines 566-581).  Note the source's
`resid_stdev = ds.attrs.get("target_residual_stdev", None)`: the variable
feeding both the `target_residual_stdev` and `residual_stdev` record fields
is read from the `target_residual_stdev` attribute, not from the
`residual_stdev` attribute computed in `do_compress`. -/
def sweep_record (lowcut highcut : ℚ) (zstd_level zlib_level : Int)
    (alg compression_method : String) (ds : Artifact) : MeasurementRecord :=
  let resid_stdev : Option ℚ := some ds.attrs.target_residual_stdev
  { alg := alg
    compression_method := compression_method
    target_residual_stdev := resid_stdev
    residual_stdev := resid_stdev
    compression_ratio := Attrs.compression_ratio ds.attrs
    compression_time_sec := ds.attrs.compression_time_sec
    lowcut := lowcut
    highcut := highcut
    compression_level :=
      if compression_method = "zlib" then zlib_level else zstd_level }

/-- Mutable state threaded through the sweep loops of `__main__`: the
`results` list, the archive, and (for specification purposes) the log of
`do_compress` calls made so far, in order. -/
structure SweepState where
  results : List MeasurementRecord
  calls : List CompressParams
  store : Store

/-- Innermost sweep loop: `for target_resid_stdev in target_residual_stdevs`
(lines 551-581).  An exception from `do_compress` propagates and aborts the
sweep. -/
def run_sweep_targets (lowcut highcut : ℚ) (zstd_level zlib_level : Int)
    (measure : String → String → ℚ → Measurements)
    (alg compression_method : String) (targets : List ℚ) (s : SweepState) :
    Except String SweepState :=
  match targets with
  | [] => Except.ok s
  | t :: rest =>
      let p := sweep_params lowcut highcut zstd_level zlib_level
        alg compression_method t
      let o := do_compress p (measure alg compression_method t) s.store
      match o.result with
      | Except.error e => Except.error e
      | Except.ok ds =>
          run_sweep_targets lowcut highcut zstd_level zlib_level measure
            alg compression_method rest
            { results := s.results ++
                [sweep_record lowcut highcut zstd_level zlib_level
                  alg compression_method ds]
              calls := s.calls ++ [p]
              store := o.store }

/-- Middle sweep loop: `for compression_method in compression_methods`. -/
def run_sweep_methods (lowcut highcut : ℚ) (zstd_level zlib_level : Int)
    (measure : String → String → ℚ → Measurements)
    (alg : String) (compression_methods : List String) (targets : List ℚ)
    (s : SweepState) : Except String SweepState :=
  match compression_methods with
  | [] => Except.ok s
  | c :: rest =>
      match run_sweep_targets lowcut highcut zstd_level zlib_level measure
          alg c targets s with
      | Except.error e => Except.error e
      | Except.ok s1 =>
          run_sweep_methods lowcut highcut zstd_level zlib_level measure
            alg rest targets s1

/-- Outer sweep loop: `for alg in algs` (lines 548-581), started from an
empty `results` list. -/
def run_sweep (lowcut highcut : ℚ) (zstd_level zlib_level : Int)
    (measure : String → String → ℚ → Measurements)
    (algs compression_methods : List String) (targets : List ℚ)
    (s : SweepState) : Except String SweepState :=
  match algs with
  | [] => Except.ok s
  | a :: rest =>
      match run_sweep_methods lowcut highcut zstd_level zlib_level measure
          a compression_methods targets s with
      | Except.error e => Except.error e
      | Except.ok s1 =>
          run_sweep lowcut highcut zstd_level zlib_level measure
            rest compression_methods targets s1

/-- The iteration order of the sweep: algorithm outermost, then coder, then
target level.  Innermost dimension. -/
def sweep_combos_targets (alg compression_method : String)
    (targets : List ℚ) : List (String × String × ℚ) :=
  targets.map (fun t => (alg, compression_method, t))

/-- Cross-product over coders and targets for one algorithm. -/
def sweep_combos_methods (alg : String) (compression_methods : List String)
    (targets : List ℚ) : List (String × String × ℚ) :=
  match compression_methods with
  | [] => []
  | c :: rest =>
      sweep_combos_targets alg c targets ++
        sweep_combos_methods alg rest targets

/-- Full cross-product in iteration order. -/
def sweep_combinations (algs compression_methods : List String)
    (targets : List ℚ) : List (String × String × ℚ) :=
  match algs with
  | [] => []
  | a :: rest =>
      sweep_combos_methods a compression_methods targets ++
        sweep_combinations rest compression_methods targets

/-! ### Helper lemmas -/

theorem Store.find_insert (st : Store) (q : CompressedPath) (a : Artifact) :
    (st.insert q a).find q = some a := by
  simp [Store.insert, Store.find, List.find?]

theorem Store.find_mem {st : Store} {q : CompressedPath} {a : Artifact}
    (h : st.find q = some a) : (q, a) ∈ st.entries := by
  unfold Store.find at h
  cases hf : st.entries.find? (fun kv => kv.1 = q) with
  | none => rw [hf] at h; cases h
  | some kv =>
      rw [hf] at h
      obtain ⟨k1, k2⟩ := kv
      have hp := List.find?_some hf
      have hmem := List.mem_of_find?_eq_some hf
      simp only [Option.some.injEq] at h
      simp only [decide_eq_true_eq] at hp
      subst hp
      subst h
      exact hmem

theorem cache_matches_true_iff (p : CompressParams) (x : Artifact) :
    cache_matches p x = true ↔
      (¬ p.alg = "qfc" ∨ ¬ p.target_residual_stdev = 0) ∧
      (¬ p.alg = "qfc" ∨ p.target_residual_stdev ≤ 0 ∨
        x.attrs.segment_length_sec = some p.segment_length_sec) := by
  simp [cache_matches]

theorem select_codec_ok (p : CompressParams) (m : Measurements) (sl : Int)
    (h : (0 < p.target_residual_stdev ∧ (p.alg = "qfc" ∨ p.alg = "qtc")) ∨
      (¬ 0 < p.target_residual_stdev ∧
        (p.compression_method = "zstd" ∨ p.compression_method = "zlib"))) :
    ∃ c, select_codec p m sl = Except.ok c := by
  rcases h with ⟨ht, h2⟩ | ⟨ht, h2⟩ <;> rcases h2 with h2 | h2 <;>
    simp [select_codec, ht, h2]

theorem select_codec_error_alg (p : CompressParams) (m : Measurements)
    (sl : Int) (ht : 0 < p.target_residual_stdev)
    (h1 : p.alg ≠ "qfc") (h2 : p.alg ≠ "qtc") :
    select_codec p m sl =
      Except.error ("Invalid compression algorithm: " ++ p.alg) := by
  simp [select_codec, ht, h1, h2]

theorem select_codec_error_method (p : CompressParams) (m : Measurements)
    (sl : Int) (ht : ¬ 0 < p.target_residual_stdev)
    (h1 : p.compression_method ≠ "zstd")
    (h2 : p.compression_method ≠ "zlib") :
    select_codec p m sl =
      Except.error ("Invalid compression method: " ++ p.compression_method) := by
  simp [select_codec, ht, h1, h2]

theorem do_compress_encode_of_ok (p : CompressParams) (m : Measurements)
    (st : Store) (ev : List Event) (c : Codec)
    (h : select_codec p m ⌊p.segment_length_sec * st.sampling_frequency⌋ =
      Except.ok c) :
    do_compress_encode p m st ev =
      { result := Except.ok ⟨c, fresh_attrs p m⟩
        store := st.insert (compress_key p) ⟨c, fresh_attrs p m⟩
        events := ev ++ [Event.created (compress_key p)] } := by
  simp [do_compress_encode, h]

theorem do_compress_encode_of_error (p : CompressParams) (m : Measurements)
    (st : Store) (ev : List Event) (e : String)
    (h : select_codec p m ⌊p.segment_length_sec * st.sampling_frequency⌋ =
      Except.error e) :
    do_compress_encode p m st ev =
      { result := Except.error e, store := st, events := ev } := by
  simp [do_compress_encode, h]

theorem do_compress_hit (p : CompressParams) (m : Measurements) (st : Store)
    (x : Artifact) (hf : st.find (compress_key p) = some x)
    (hm : cache_matches p x = true) :
    do_compress p m st =
      { result := Except.ok x, store := st
        events := [Event.opened_store] } := by
  simp [do_compress, hf, hm]

theorem do_compress_stale (p : CompressParams) (m : Measurements) (st : Store)
    (x : Artifact) (hf : st.find (compress_key p) = some x)
    (hm : cache_matches p x = false) :
    do_compress p m st =
      do_compress_encode p m (st.erase (compress_key p))
        [Event.opened_store, Event.deleted (compress_key p)] := by
  simp [do_compress, hf, hm]

theorem do_compress_miss (p : CompressParams) (m : Measurements) (st : Store)
    (hf : st.find (compress_key p) = none) :
    do_compress p m st = do_compress_encode p m st [Event.opened_store] := by
  simp [do_compress, hf]

/-! ### Concrete instances for witnesses and counterexamples -/

/-- A concrete `Measurements` value: the quantities the external libraries
would hand back on some run. -/
def demo_meas : Measurements :=
  { qfc_quant_scale_factor := 2
    qtc_quant_scale_factor := 3
    measured_time_sec := 1
    mem_store := [(".zattrs", 50), ("0.0", 100)]
    x_total_bytes := 400
    measured_residual_stdev := 3 }

/-- A concrete archive with no compressed datasets yet. -/
def empty_store : Store := { sampling_frequency := 30000, entries := [] }

/-- A concrete parameter tuple with the ratio flag set. -/
def c7_ratio_params : CompressParams :=
  { lowcut := 300, highcut := 6000, alg := "qtc"
    compression_method := "zlib", target_residual_stdev := 4
    segment_length_sec := 3, zstd_level := 15, zlib_level := 6
    estimate_compression_time := false, compute_compression_ratio := true
    compute_residual_stdev := false }

/-! ### C6: chunk-shape derivation -/

/-- C6 (amended): for every two-dimensional shape `(T, C)` with a positive
channel count, `get_chunks_for_shape` returns a pair `(t, C)` with `t ≤ T`,
channel count exactly `C`, and `t * C ≤ 4000000` (in every case, hence in
particular in the tiling case); it raises for any shape whose rank is not
two.  (For `C = 0` — excluded here — the division `4_000_000 // 0` raises a
`ZeroDivisionError` instead of returning a pair.) -/
theorem chunk_shape_law :
    (∀ t c : Nat, 0 < c →
      ∃ tc, get_chunks_for_shape [t, c] = Except.ok [tc, c] ∧
        tc ≤ t ∧ tc * c ≤ 4000000) ∧
    (∀ shape : List Nat, shape.length ≠ 2 →
      get_chunks_for_shape shape =
        Except.error "Cannot get chunks for shape") := by
  constructor
  · intro t c hcpos
    have hc0 : ¬ c = 0 := Nat.pos_iff_ne_zero.mp hcpos
    by_cases h1 : t ≤ 4000000 / c
    · exact ⟨t, by simp [get_chunks_for_shape, hc0, h1], le_refl t,
        (Nat.le_div_iff_mul_le hcpos).mp h1⟩
    · by_cases h2 : t ≤ 4000000 / c * 2
      · refine ⟨(t + 1) / 2, by simp [get_chunks_for_shape, hc0, h1, h2], ?_, ?_⟩
        · have := Nat.zero_le (4000000 / c)
          omega
        · have hle : (t + 1) / 2 ≤ 4000000 / c := by omega
          exact le_trans (Nat.mul_le_mul_right c hle) (Nat.div_mul_le_self _ _)
      · refine ⟨4000000 / c, by simp [get_chunks_for_shape, hc0, h1, h2], ?_,
          Nat.div_mul_le_self _ _⟩
        omega
  · intro shape hlen
    rcases shape with _ | ⟨a, rest⟩
    · rfl
    rcases rest with _ | ⟨b, rest2⟩
    · rfl
    rcases rest2 with _ | ⟨c, rest3⟩
    · simp at hlen
    · rfl

/-- C6 counterexample: the rank-two shape `(5, 0)` does not yield a chunk
pair — the claim's universally quantified statement fails there, because the
code divides the target cell count by the channel count and Python raises
`ZeroDivisionError` on `4_000_000 // 0`. -/
theorem chunk_shape_zero_channels :
    ([5, 0] : List Nat).length = 2 ∧
    get_chunks_for_shape [5, 0] =
      Except.error "ZeroDivisionError: integer division or modulo by zero" :=
  ⟨rfl, rfl⟩

/-- Witness for `chunk_shape_law` at the concrete tiling shape
`(10000000, 32)` and the rank-3 shape `[1, 2, 3]`. -/
theorem chunk_shape_law_witness :
    ((0 : Nat) < 32 ∧
      ∃ tc, get_chunks_for_shape [10000000, 32] = Except.ok [tc, 32] ∧
        tc ≤ 10000000 ∧ tc * 32 ≤ 4000000) ∧
    (([1, 2, 3] : List Nat).length ≠ 2 ∧
      get_chunks_for_shape [1, 2, 3] =
        Except.error "Cannot get chunks for shape") :=
  ⟨⟨by decide, chunk_shape_law.1 10000000 32 (by decide)⟩,
    ⟨by decide, chunk_shape_law.2 [1, 2, 3] (by decide)⟩⟩

/-! ### C7: compression-ratio denominator excludes metadata -/

/-- C7: the byte-size sum used as the compression-ratio denominator counts
exactly the non-metadata entries: it equals the sum over entries whose key
does not start with `"."`; for a store holding only `"."`-keys it is `0`
(never a metadata-inclusive total); the ratio attribute computed by
`do_compress` is the uncompressed byte count divided by exactly this sum of
the throwaway memory store's entries; and every dataset `do_compress` creates
carries the `fresh_attrs` attribute dictionary, so its ratio attribute is of
that form. -/
theorem ratio_excludes_metadata :
    (∀ store : List (String × Nat),
      compute_size_of_zarr_store_excluding_meta store =
        ((store.filter (fun kv => ! str_starts_with kv.1 ".")).map
          (fun kv => kv.2)).sum) ∧
    (∀ store : List (String × Nat),
      (∀ kv ∈ store, str_starts_with kv.1 ".") →
      compute_size_of_zarr_store_excluding_meta store = 0) ∧
    (∀ (p : CompressParams) (m : Measurements),
      CompressParams.compute_compression_ratio p = true →
      Attrs.compression_ratio (fresh_attrs p m) =
        some ((m.x_total_bytes : ℚ) /
          (compute_size_of_zarr_store_excluding_meta m.mem_store : ℚ))) ∧
    (∀ (p : CompressParams) (m : Measurements) (st : Store) (ev : List Event)
      (ds : Artifact),
      (do_compress_encode p m st ev).result = Except.ok ds →
      ds.attrs = fresh_attrs p m) := by
  refine ⟨?_, ?_, ?_, ?_⟩
  · intro store
    induction store with
    | nil => rfl
    | cons kv rest ih =>
        by_cases h : str_starts_with kv.1 "."
        · simp [compute_size_of_zarr_store_excluding_meta, h, ih]
        · simp [compute_size_of_zarr_store_excluding_meta, h, ih]
  · intro store hall
    induction store with
    | nil => rfl
    | cons kv rest ih =>
        have hk : str_starts_with kv.1 "." := hall kv (List.mem_cons_self kv rest)
        have ihr := ih (fun x hx => hall x (List.mem_cons_of_mem kv hx))
        simp [compute_size_of_zarr_store_excluding_meta, hk, ihr]
  · intro p m h
    simp [fresh_attrs, h]
  · intro p m st ev ds h
    rcases hsel : select_codec p m
        ⌊p.segment_length_sec * st.sampling_frequency⌋ with e | c
    · rw [do_compress_encode_of_error p m st ev e hsel] at h
      simp at h
    · rw [do_compress_encode_of_ok p m st ev c hsel] at h
      have h' : (⟨c, fresh_attrs p m⟩ : Artifact) = ds := by
        simpa using h
      rw [← h']

/-- Witness for `ratio_excludes_metadata`: a concrete mixed store, a concrete
metadata-only store, and a concrete ratio computation. -/
theorem ratio_excludes_metadata_witness :
    (compute_size_of_zarr_store_excluding_meta
        [(".zattrs", 50), ("0.0", 100), (".zarray", 7), ("0.1", 11)] =
      (([((".zattrs" : String), (50 : Nat)), ("0.0", 100), (".zarray", 7),
        ("0.1", 11)].filter (fun kv => ! str_starts_with kv.1 ".")).map
          (fun kv => kv.2)).sum) ∧
    (compute_size_of_zarr_store_excluding_meta
        [(".zattrs", 50), (".zgroup", 9)] = 0) ∧
    ( CompressParams.compute_compression_ratio c7_ratio_params = true ∧
      Attrs.compression_ratio (fresh_attrs c7_ratio_params demo_meas) =
        some ((demo_meas.x_total_bytes : ℚ) /
          (compute_size_of_zarr_store_excluding_meta demo_meas.mem_store : ℚ))) :=
  ⟨ratio_excludes_metadata.1 _,
    ratio_excludes_metadata.2.1 _ (by decide),
    ⟨rfl, ratio_excludes_metadata.2.2.1 c7_ratio_params demo_meas rfl⟩⟩

/-! ### C4: qfc with zero target is never a cache hit -/

/-- C4: a call with `alg = "qfc"` and target residual level `0` never treats
an existing dataset at the computed key as a cache hit, whatever its stored
metadata `a` is: the dataset is deleted right after the store is opened, and
(for a known entropy coder) a fresh dataset is recomputed at the same key
with freshly assembled attributes. -/
theorem qfc_zero_target_never_cache_hit (p : CompressParams)
    (m : Measurements) (st : Store) (a : Artifact)
    (halg : p.alg = "qfc") (ht : p.target_residual_stdev = 0)
    (hf : st.find (compress_key p) = some a) :
    (do_compress p m st).events.take 2 =
      [Event.opened_store, Event.deleted (compress_key p)] ∧
    ((p.compression_method = "zstd" ∨ p.compression_method = "zlib") →
      ∃ ds, do_compress p m st =
        { result := Except.ok ds
          store := (st.erase (compress_key p)).insert (compress_key p) ds
          events := [Event.opened_store, Event.deleted (compress_key p),
            Event.created (compress_key p)] } ∧
        ds.attrs = fresh_attrs p m) := by
  have hcm : cache_matches p a = false := by
    simp [cache_matches, halg, ht]
  rw [do_compress_stale p m st a hf hcm]
  have hnt : ¬ 0 < p.target_residual_stdev := by rw [ht]; exact lt_irrefl 0
  constructor
  · rcases hsel : select_codec p m
        ⌊p.segment_length_sec * (st.erase (compress_key p)).sampling_frequency⌋
        with e | c
    · rw [do_compress_encode_of_error p m _ _ e hsel]
      rfl
    · rw [do_compress_encode_of_ok p m _ _ c hsel]
      rfl
  · intro hcmeth
    obtain ⟨c, hsel⟩ := select_codec_ok p m
      ⌊p.segment_length_sec * (st.erase (compress_key p)).sampling_frequency⌋
      (Or.inr ⟨hnt, hcmeth⟩)
    rw [do_compress_encode_of_ok p m _ _ c hsel]
    exact ⟨⟨c, fresh_attrs p m⟩, rfl, rfl⟩

/-- Concrete instances for the C4 witness: a qfc/zstd/target-0 call finding a
previously stored dataset (with matching stored metadata) at its key. -/
def c4_params : CompressParams :=
  { lowcut := 300, highcut := 6000, alg := "qfc"
    compression_method := "zstd", target_residual_stdev := 0
    segment_length_sec := 3, zstd_level := 15, zlib_level := 6
    estimate_compression_time := false, compute_compression_ratio := false
    compute_residual_stdev := false }

def c4_artifact : Artifact :=
  { codec := Codec.blosc_zstd 9
    attrs :=
      { compression_time_sec := none, compression_ratio := none
        residual_stdev := none, segment_length_sec := none
        lowcut := 300, highcut := 6000, alg := "qfc"
        compression_method := "zstd", target_residual_stdev := 0
        zstd_level := some 15, zlib_level := none } }

def c4_store : Store :=
  { sampling_frequency := 30000
    entries := [(compress_key c4_params, c4_artifact)] }

/-- Witness for `qfc_zero_target_never_cache_hit` at the concrete instance. -/
theorem qfc_zero_target_never_cache_hit_witness :
    (c4_params.alg = "qfc" ∧ c4_params.target_residual_stdev = 0 ∧
      c4_store.find (compress_key c4_params) = some c4_artifact) ∧
    ((do_compress c4_params demo_meas c4_store).events.take 2 =
      [Event.opened_store, Event.deleted (compress_key c4_params)] ∧
    (∃ ds, do_compress c4_params demo_meas c4_store =
        { result := Except.ok ds
          store := (c4_store.erase (compress_key c4_params)).insert
            (compress_key c4_params) ds
          events := [Event.opened_store, Event.deleted (compress_key c4_params),
            Event.created (compress_key c4_params)] } ∧
        ds.attrs = fresh_attrs c4_params demo_meas)) :=
  ⟨⟨rfl, rfl, by decide⟩,
    (qfc_zero_target_never_cache_hit c4_params demo_meas c4_store c4_artifact
      rfl rfl (by decide)).1,
    (qfc_zero_target_never_cache_hit c4_params demo_meas c4_store c4_artifact
      rfl rfl (by decide)).2 (Or.inl rfl)⟩

/-! ### C5: segment-length mismatch forces delete and recreate -/

/-- A store is well formed when only datasets stored under a `qfc` key carry
the `segment_length_sec` attribute — exactly the states `do_compress` can
produce, since it sets that attribute only for `alg = "qfc"` with positive
target (line 388-389). -/
def Store.wellFormed (st : Store) : Prop :=
  ∀ kv ∈ st.entries,
    kv.2.attrs.segment_length_sec.isSome = true → kv.1.alg = "qfc"

instance (st : Store) : Decidable st.wellFormed :=
  inferInstanceAs (Decidable (∀ kv ∈ st.entries,
    kv.2.attrs.segment_length_sec.isSome = true → kv.1.alg = "qfc"))

/-- C5: a call with positive target residual level that finds a dataset at
its key whose stored `segment_length_sec` differs from the requested one
(in a well-formed store such a dataset is a qfc dataset) deletes the stale
dataset and creates a fresh one at the same key, with the requested segment
length stored in its metadata. -/
theorem segment_length_cache_invalidation (p : CompressParams)
    (m : Measurements) (st : Store) (a : Artifact) (s : ℚ)
    (hwf : st.wellFormed) (ht : 0 < p.target_residual_stdev)
    (hf : st.find (compress_key p) = some a)
    (hs : a.attrs.segment_length_sec = some s)
    (hneq : s ≠ p.segment_length_sec) :
    ∃ ds, do_compress p m st =
      { result := Except.ok ds
        store := (st.erase (compress_key p)).insert (compress_key p) ds
        events := [Event.opened_store, Event.deleted (compress_key p),
          Event.created (compress_key p)] } ∧
      ds.attrs.segment_length_sec = some p.segment_length_sec := by
  have halg : p.alg = "qfc" := by
    have := hwf _ (Store.find_mem hf) (by rw [hs]; rfl)
    exact this
  have hcm : cache_matches p a = false := by
    rw [Bool.eq_false_iff]
    intro hT
    obtain ⟨-, h2⟩ := (cache_matches_true_iff p a).mp hT
    rcases h2 with h2 | h2 | h2
    · exact h2 halg
    · exact absurd ht (not_lt.mpr h2)
    · rw [hs] at h2
      exact hneq (Option.some.inj h2)
  rw [do_compress_stale p m st a hf hcm]
  obtain ⟨c, hsel⟩ := select_codec_ok p m
    ⌊p.segment_length_sec * (st.erase (compress_key p)).sampling_frequency⌋
    (Or.inl ⟨ht, Or.inl halg⟩)
  rw [do_compress_encode_of_ok p m _ _ c hsel]
  exact ⟨⟨c, fresh_attrs p m⟩, rfl, by simp [fresh_attrs, halg, ht]⟩

/-- Concrete instances for the C5 witness: a qfc dataset stored with segment
length `2` while segment length `3` is requested. -/
def c5_params : CompressParams :=
  { lowcut := 300, highcut := 6000, alg := "qfc"
    compression_method := "zstd", target_residual_stdev := 4
    segment_length_sec := 3, zstd_level := 15, zlib_level := 6
    estimate_compression_time := false, compute_compression_ratio := false
    compute_residual_stdev := false }

def c5_artifact : Artifact :=
  { codec := Codec.qfc 2 "zstd" 60000 15 6
    attrs :=
      { compression_time_sec := none, compression_ratio := none
        residual_stdev := none, segment_length_sec := some 2
        lowcut := 300, highcut := 6000, alg := "qfc"
        compression_method := "zstd", target_residual_stdev := 4
        zstd_level := some 15, zlib_level := none } }

def c5_store : Store :=
  { sampling_frequency := 30000
    entries := [(compress_key c5_params, c5_artifact)] }

/-- Witness for `segment_length_cache_invalidation` at the concrete
instance. -/
theorem segment_length_cache_invalidation_witness :
    (0 < c5_params.target_residual_stdev ∧
      c5_store.find (compress_key c5_params) = some c5_artifact ∧
      c5_artifact.attrs.segment_length_sec = some 2 ∧
      (2 : ℚ) ≠ c5_params.segment_length_sec) ∧
    (∃ ds, do_compress c5_params demo_meas c5_store =
      { result := Except.ok ds
        store := (c5_store.erase (compress_key c5_params)).insert
          (compress_key c5_params) ds
        events := [Event.opened_store, Event.deleted (compress_key c5_params),
          Event.created (compress_key c5_params)] } ∧
      ds.attrs.segment_length_sec = some c5_params.segment_length_sec) :=
  ⟨⟨by decide, by decide, rfl, by decide⟩,
    segment_length_cache_invalidation c5_params demo_meas c5_store c5_artifact
      2 (by decide) (by decide) (by decide) rfl (by decide)⟩

/-! ### C2: unknown algorithm / coder validation -/

/-- C2 (amended): with no artifact at the computed key, an unknown algorithm
variant is rejected with an `InvalidConfiguration` (`ValueError`) only when
the target residual level is positive, and an unknown entropy-coder name only
when the target level is not positive; in those cases the error is raised
after the artifact store has been opened (the open precedes validation) but
before any deletion or dataset write — the store is left unchanged.  (The
claim's stronger reading fails: see `invalid_alg_not_rejected`.) -/
theorem invalid_configuration_error (p : CompressParams) (m : Measurements)
    (st : Store)
    (hf : st.find (compress_key p) = none)
    (h : (0 < p.target_residual_stdev ∧ p.alg ≠ "qfc" ∧ p.alg ≠ "qtc") ∨
      (¬ 0 < p.target_residual_stdev ∧ p.compression_method ≠ "zstd" ∧
        p.compression_method ≠ "zlib")) :
    (∃ e, (do_compress p m st).result = Except.error e) ∧
    (do_compress p m st).store = st ∧
    (do_compress p m st).events = [Event.opened_store] := by
  rw [do_compress_miss p m st hf]
  rcases h with ⟨ht, ha1, ha2⟩ | ⟨ht, hc1, hc2⟩
  · rw [do_compress_encode_of_error p m st _ _
      (select_codec_error_alg p m _ ht ha1 ha2)]
    exact ⟨⟨_, rfl⟩, rfl, rfl⟩
  · rw [do_compress_encode_of_error p m st _ _
      (select_codec_error_method p m _ ht hc1 hc2)]
    exact ⟨⟨_, rfl⟩, rfl, rfl⟩

/-- Concrete instance for the C2 counterexample: an unknown algorithm with
target level 0. -/
def c2_params : CompressParams :=
  { lowcut := 300, highcut := 6000, alg := "abc"
    compression_method := "zstd", target_residual_stdev := 0
    segment_length_sec := 3, zstd_level := 3, zlib_level := 3
    estimate_compression_time := false, compute_compression_ratio := false
    compute_residual_stdev := false }

/-- C2 counterexample: with algorithm `"abc"` (outside `{qfc, qtc}`) and
target level `0`, `do_compress` does not fail at all — it opens the store and
writes a dataset with the pure entropy codec, so the claimed
fail-before-any-I/O behaviour does not hold. -/
theorem invalid_alg_not_rejected :
    (("abc" : String) ≠ "qfc" ∧ ("abc" : String) ≠ "qtc") ∧
    (do_compress c2_params demo_meas empty_store).result.toOption.isSome =
      true ∧
    (do_compress c2_params demo_meas empty_store).events =
      [Event.opened_store, Event.created (compress_key c2_params)] := by
  decide

/-- Witness for `invalid_configuration_error`: an unknown algorithm with a
positive target level and an empty store. -/
def c2w_params : CompressParams :=
  { lowcut := 300, highcut := 6000, alg := "abc"
    compression_method := "zstd", target_residual_stdev := 2
    segment_length_sec := 3, zstd_level := 3, zlib_level := 3
    estimate_compression_time := false, compute_compression_ratio := false
    compute_residual_stdev := false }

theorem invalid_configuration_error_witness :
    (empty_store.find (compress_key c2w_params) = none ∧
      0 < c2w_params.target_residual_stdev ∧
      c2w_params.alg ≠ "qfc" ∧ c2w_params.alg ≠ "qtc") ∧
    ((∃ e, (do_compress c2w_params demo_meas empty_store).result =
        Except.error e) ∧
      (do_compress c2w_params demo_meas empty_store).store = empty_store ∧
      (do_compress c2w_params demo_meas empty_store).events =
        [Event.opened_store]) :=
  ⟨⟨by decide, by decide, by decide, by decide⟩,
    invalid_configuration_error c2w_params demo_meas empty_store (by decide)
      (Or.inl ⟨by decide, by decide, by decide⟩)⟩

/-! ### C3: idempotence of the second call -/

theorem do_compress_encode_ok_find (p : CompressParams) (m : Measurements)
    (st : Store) (ev : List Event) (a : Artifact)
    (h : (do_compress_encode p m st ev).result = Except.ok a) :
    (do_compress_encode p m st ev).store.find (compress_key p) = some a ∧
    (p.alg = "qfc" → 0 < p.target_residual_stdev →
      a.attrs.segment_length_sec = some p.segment_length_sec) := by
  rcases hsel : select_codec p m
      ⌊p.segment_length_sec * st.sampling_frequency⌋ with e | c
  · rw [do_compress_encode_of_error p m st ev e hsel] at h
    simp at h
  · rw [do_compress_encode_of_ok p m st ev c hsel] at h ⊢
    have h' : (⟨c, fresh_attrs p m⟩ : Artifact) = a := by simpa using h
    subst h'
    refine ⟨Store.find_insert _ _ _, ?_⟩
    intro halg ht
    simp [fresh_attrs, halg, ht]

/-- After a successful `do_compress` call, the returned dataset sits at the
computed key in the resulting archive, and — for qfc with positive target —
its stored `segment_length_sec` equals the requested one (either it was just
written that way, or the cache validation just checked it). -/
theorem do_compress_ok_find (p : CompressParams) (m : Measurements)
    (st : Store) (a : Artifact)
    (h : (do_compress p m st).result = Except.ok a) :
    (do_compress p m st).store.find (compress_key p) = some a ∧
    (p.alg = "qfc" → 0 < p.target_residual_stdev →
      a.attrs.segment_length_sec = some p.segment_length_sec) := by
  cases hf : st.find (compress_key p) with
  | some x =>
      cases hcm : cache_matches p x with
      | true =>
          rw [do_compress_hit p m st x hf hcm] at h ⊢
          have h' : x = a := by simpa using h
          subst h'
          refine ⟨hf, ?_⟩
          intro halg ht
          obtain ⟨-, h2⟩ := (cache_matches_true_iff p x).mp hcm
          rcases h2 with h2 | h2 | h2
          · exact absurd halg h2
          · exact absurd ht (not_lt.mpr h2)
          · exact h2
      | false =>
          rw [do_compress_stale p m st x hf hcm] at h ⊢
          exact do_compress_encode_ok_find p m _ _ a h
  | none =>
      rw [do_compress_miss p m st hf] at h ⊢
      exact do_compress_encode_ok_find p m _ _ a h

/-- C3 (amended): for every parameter tuple except the degenerate
`alg = "qfc"` with target residual level `0`, a second `do_compress` call
with identical parameters after a successful first call finds the artifact
at the computed key, validates the match, and returns the existing artifact
unchanged with identical metadata — the archive is untouched and the only
I/O is opening the store (no deletion, no dataset write, no metric
recomputation).  (For the excluded degenerate tuple the claim fails: see
`second_call_recomputes_for_qfc_zero`.) -/
theorem idempotent_second_call (p : CompressParams) (m m2 : Measurements)
    (st : Store) (a : Artifact)
    (hdeg : ¬ (p.alg = "qfc" ∧ p.target_residual_stdev = 0))
    (h1 : (do_compress p m st).result = Except.ok a) :
    do_compress p m2 (do_compress p m st).store =
      { result := Except.ok a
        store := (do_compress p m st).store
        events := [Event.opened_store] } := by
  obtain ⟨hfind, hseg⟩ := do_compress_ok_find p m st a h1
  have hcm : cache_matches p a = true := by
    rw [cache_matches_true_iff]
    constructor
    · by_cases halg : p.alg = "qfc"
      · exact Or.inr (fun ht0 => hdeg ⟨halg, ht0⟩)
      · exact Or.inl halg
    · by_cases halg : p.alg = "qfc"
      · by_cases ht : 0 < p.target_residual_stdev
        · exact Or.inr (Or.inr (hseg halg ht))
        · exact Or.inr (Or.inl (not_lt.mp ht))
      · exact Or.inl halg
  exact do_compress_hit p m2 _ a hfind hcm

/-- Concrete instance for the C3 counterexample: qfc/zstd with target
level 0. -/
def c3_params : CompressParams :=
  { lowcut := 300, highcut := 6000, alg := "qfc"
    compression_method := "zstd", target_residual_stdev := 0
    segment_length_sec := 3, zstd_level := 15, zlib_level := 6
    estimate_compression_time := false, compute_compression_ratio := false
    compute_residual_stdev := false }

/-- C3 counterexample: for the parameter tuple (qfc, zstd, target 0) the
second identical call deletes the artifact the first call just wrote and
recomputes it, so the claim's universal statement over every parameter tuple
fails. -/
theorem second_call_recomputes_for_qfc_zero :
    (do_compress c3_params demo_meas
        (do_compress c3_params demo_meas empty_store).store).events =
      [Event.opened_store, Event.deleted (compress_key c3_params),
        Event.created (compress_key c3_params)] := by
  decide

/-- Concrete instance for the C3 witness: qfc/zstd with positive target. -/
def c3w_params : CompressParams :=
  { lowcut := 300, highcut := 6000, alg := "qfc"
    compression_method := "zstd", target_residual_stdev := 2
    segment_length_sec := 3, zstd_level := 15, zlib_level := 6
    estimate_compression_time := false, compute_compression_ratio := false
    compute_residual_stdev := false }

/-- The dataset the first `do_compress c3w_params` call on the empty store
creates (the floor expression is the `segment_length` the encode path
computes). -/
def c3w_artifact : Artifact :=
  { codec := Codec.qfc demo_meas.qfc_quant_scale_factor "zstd"
      ⌊c3w_params.segment_length_sec * empty_store.sampling_frequency⌋ 15 6
    attrs := fresh_attrs c3w_params demo_meas }

theorem idempotent_second_call_witness :
    (¬ (c3w_params.alg = "qfc" ∧ c3w_params.target_residual_stdev = 0)) ∧
    (do_compress c3w_params demo_meas empty_store).result =
      Except.ok c3w_artifact ∧
    do_compress c3w_params demo_meas
        (do_compress c3w_params demo_meas empty_store).store =
      { result := Except.ok c3w_artifact
        store := (do_compress c3w_params demo_meas empty_store).store
        events := [Event.opened_store] } :=
  ⟨by decide, rfl,
    idempotent_second_call c3w_params demo_meas demo_meas empty_store
      c3w_artifact (by decide) rfl⟩

/-! ### C9: store-removal safety rails -/

/-- C9: a remote (`r2://`) path outside the scratch namespace is rejected
with the safety error before any backend action (no existence check, no
deletion) — never a silent no-op; and an in-namespace remote path that
exists but whose interactive confirmation answer is not `"y"` raises the
user-abort error after only the existence check — no deletion is
performed. -/
theorem remove_store_safety :
    (∀ (zarr_path : String) (path_exists : Bool) (answer : String),
      str_starts_with zarr_path "r2://" = true →
      str_starts_with zarr_path "r2://neurosift/scratch/" = false →
      remove_zarr_store zarr_path path_exists answer =
        ([], Except.error ("Cannot remove zarr store: " ++ zarr_path))) ∧
    (∀ (zarr_path : String) (answer : String),
      str_starts_with zarr_path "r2://" = true →
      str_starts_with zarr_path "r2://neurosift/scratch/" = true →
      answer ≠ "y" →
      remove_zarr_store zarr_path true answer =
        ([RemoveEvent.existence_check],
          Except.error ("User did not confirm removal of " ++
            strip_r2 zarr_path))) := by
  constructor
  · intro zp pe ans h1 h2
    simp [remove_zarr_store, h1, h2]
  · intro zp ans h1 h2 hans
    simp [remove_zarr_store, h1, h2, hans]

/-- Witness for `remove_store_safety`: a concrete out-of-namespace remote
path, and a concrete in-namespace path with the confirmation declined. -/
theorem remove_store_safety_witness :
    (str_starts_with "r2://other-bucket/data.zarr" "r2://" = true ∧
      str_starts_with "r2://other-bucket/data.zarr"
        "r2://neurosift/scratch/" = false ∧
      remove_zarr_store "r2://other-bucket/data.zarr" true "y" =
        ([], Except.error
          ("Cannot remove zarr store: " ++ "r2://other-bucket/data.zarr"))) ∧
    (str_starts_with "r2://neurosift/scratch/test1.zarr" "r2://" = true ∧
      str_starts_with "r2://neurosift/scratch/test1.zarr"
        "r2://neurosift/scratch/" = true ∧
      ("n" : String) ≠ "y" ∧
      remove_zarr_store "r2://neurosift/scratch/test1.zarr" true "n" =
        ([RemoveEvent.existence_check],
          Except.error ("User did not confirm removal of " ++
            strip_r2 "r2://neurosift/scratch/test1.zarr"))) :=
  ⟨⟨by decide, by decide,
      remove_store_safety.1 "r2://other-bucket/data.zarr" true "y"
        (by decide) (by decide)⟩,
    ⟨by decide, by decide, by decide,
      remove_store_safety.2 "r2://neurosift/scratch/test1.zarr" "n"
        (by decide) (by decide) (by decide)⟩⟩

/-! ### C10: zstd levels above 9 are clamped in the codec but not in the
key or metadata -/

/-- C10: with target residual level `0`, coder `zstd`, and a requested zstd
level above `9`, the dataset is encoded with Blosc-zstd at level `9`
(`min(level, 9)`), while the storage key's level component and the stored
`zstd_level` attribute both record the unclamped requested level; two such
calls differing only in their above-9 levels therefore produce
identically-parameterised codecs under distinct keys. -/
theorem zstd_level_clamp (p : CompressParams) (m1 m2 : Measurements)
    (st1 st2 : Store) (L1 L2 : Int)
    (ht : p.target_residual_stdev = 0)
    (hcm : p.compression_method = "zstd")
    (h1 : 9 < L1) (h2 : 9 < L2) (hne : L1 ≠ L2)
    (hf1 : st1.find (compress_key { p with zstd_level := L1 }) = none)
    (hf2 : st2.find (compress_key { p with zstd_level := L2 }) = none) :
    ∃ d1 d2,
      (do_compress { p with zstd_level := L1 } m1 st1).result =
        Except.ok d1 ∧
      (do_compress { p with zstd_level := L2 } m2 st2).result =
        Except.ok d2 ∧
      d1.codec = Codec.blosc_zstd 9 ∧ d1.codec = d2.codec ∧
      d1.attrs.zstd_level = some L1 ∧ d2.attrs.zstd_level = some L2 ∧
      (compress_key { p with zstd_level := L1 }).compression_level = L1 ∧
      (compress_key { p with zstd_level := L2 }).compression_level = L2 ∧
      compress_key { p with zstd_level := L1 } ≠
        compress_key { p with zstd_level := L2 } := by
  have hnt : ¬ (0 : ℚ) < 0 := lt_irrefl 0
  have hsel1 : select_codec { p with zstd_level := L1 } m1
      ⌊p.segment_length_sec * st1.sampling_frequency⌋ =
      Except.ok (Codec.blosc_zstd 9) := by
    simp [select_codec, ht, hcm, min_eq_right (le_of_lt h1)]
  have hsel2 : select_codec { p with zstd_level := L2 } m2
      ⌊p.segment_length_sec * st2.sampling_frequency⌋ =
      Except.ok (Codec.blosc_zstd 9) := by
    simp [select_codec, ht, hcm, min_eq_right (le_of_lt h2)]
  rw [do_compress_miss _ m1 st1 hf1,
    do_compress_encode_of_ok _ m1 st1 _ _ hsel1,
    do_compress_miss _ m2 st2 hf2,
    do_compress_encode_of_ok _ m2 st2 _ _ hsel2]
  refine ⟨_, _, rfl, rfl, rfl, rfl, ?_, ?_, ?_, ?_, ?_⟩
  · simp [fresh_attrs, hcm]
  · simp [fresh_attrs, hcm]
  · simp [compress_key, get_compressed_path, hcm]
  · simp [compress_key, get_compressed_path, hcm]
  · intro hk
    have := congrArg CompressedPath.compression_level hk
    simp [compress_key, get_compressed_path, hcm] at this
    exact hne this

/-- Concrete instance for the C10 witness: zstd levels 15 and 20 with target
level 0. -/
def c10_params : CompressParams :=
  { lowcut := 300, highcut := 6000, alg := "qfc"
    compression_method := "zstd", target_residual_stdev := 0
    segment_length_sec := 3, zstd_level := 3, zlib_level := 6
    estimate_compression_time := false, compute_compression_ratio := false
    compute_residual_stdev := false }

theorem zstd_level_clamp_witness :
    (c10_params.target_residual_stdev = 0 ∧
      c10_params.compression_method = "zstd" ∧
      (9 : Int) < 15 ∧ (9 : Int) < 20 ∧ (15 : Int) ≠ 20 ∧
      empty_store.find (compress_key { c10_params with zstd_level := 15 }) =
        none ∧
      empty_store.find (compress_key { c10_params with zstd_level := 20 }) =
        none) ∧
    (∃ d1 d2,
      (do_compress { c10_params with zstd_level := 15 } demo_meas
        empty_store).result = Except.ok d1 ∧
      (do_compress { c10_params with zstd_level := 20 } demo_meas
        empty_store).result = Except.ok d2 ∧
      d1.codec = Codec.blosc_zstd 9 ∧ d1.codec = d2.codec ∧
      d1.attrs.zstd_level = some 15 ∧ d2.attrs.zstd_level = some 20 ∧
      (compress_key { c10_params with zstd_level := 15 }).compression_level =
        15 ∧
      (compress_key { c10_params with zstd_level := 20 }).compression_level =
        20 ∧
      compress_key { c10_params with zstd_level := 15 } ≠
        compress_key { c10_params with zstd_level := 20 }) :=
  ⟨⟨rfl, rfl, by decide, by decide, by decide, by decide, by decide⟩,
    zstd_level_clamp c10_params demo_meas demo_meas empty_store empty_store
      15 20 rfl rfl (by decide) (by decide) (by decide) (by decide)
      (by decide)⟩

/-! ### C1: the record's residual field reports the target, not the
measurement -/

/-- Concrete sweep combination for C1: qfc/zstd with target residual level 2,
all three metric flags enabled (as in the sweep), on a run where the measured
residual standard deviation comes out as 3. -/
def c1_params : CompressParams :=
  { lowcut := 300, highcut := 6000, alg := "qfc"
    compression_method := "zstd", target_residual_stdev := 2
    segment_length_sec := 3, zstd_level := 15, zlib_level := 6
    estimate_compression_time := true, compute_compression_ratio := true
    compute_residual_stdev := true }

/-- C1: the residual-error metric is requested and computed — `do_compress`
stores the measured value (here `3`) in the dataset's `residual_stdev`
attribute — yet the Measurement Record that `__main__` builds from the
returned dataset reports `2` (the requested target, read back from the
`target_residual_stdev` attribute) as its `residual_stdev`, because line 568
reads `ds.attrs.get("target_residual_stdev", None)` into the variable that
populates both record fields.  The measured value never reaches the record,
contradicting the claim wherever measurement and target differ. -/
theorem record_residual_is_target :
    ((do_compress c1_params demo_meas empty_store).result.toOption.map
      (fun ds => (ds.attrs.residual_stdev,
        (sweep_record 300 6000 15 6 "qfc" "zstd" ds).residual_stdev,
        (sweep_record 300 6000 15 6 "qfc" "zstd" ds).target_residual_stdev)))
      = some (some 3, some 2, some 2) ∧
    demo_meas.measured_residual_stdev = 3 ∧
    c1_params.compute_residual_stdev = true ∧
    (3 : ℚ) ≠ 2 := by
  decide

/-! ### C8: the sweep iterates the full cross-product -/

/-- The `do_compress` keyword arguments for the sweep combination `x`
(pure in the combination — independent of the archive state). -/
def combo_params (lowcut highcut : ℚ) (zstd_level zlib_level : Int)
    (x : String × String × ℚ) : CompressParams :=
  sweep_params lowcut highcut zstd_level zlib_level x.1 x.2.1 x.2.2

/-- The combination identifiers a Measurement Record carries verbatim from
its loop variables. -/
def record_combo (r : MeasurementRecord) : String × String :=
  (r.alg, r.compression_method)

/-- With a known algorithm and coder, `do_compress` always returns a
dataset (cache hit or fresh encode) — it never raises. -/
theorem do_compress_result_ok (p : CompressParams) (m : Measurements)
    (st : Store)
    (ha : p.alg = "qfc" ∨ p.alg = "qtc")
    (hc : p.compression_method = "zstd" ∨ p.compression_method = "zlib") :
    ∃ a, (do_compress p m st).result = Except.ok a := by
  have hsel : ∀ sl, ∃ c, select_codec p m sl = Except.ok c := fun sl =>
    select_codec_ok p m sl (by
      by_cases ht : 0 < p.target_residual_stdev
      · exact Or.inl ⟨ht, ha⟩
      · exact Or.inr ⟨ht, hc⟩)
  cases hf : st.find (compress_key p) with
  | some x =>
      cases hcm : cache_matches p x with
      | true => exact ⟨x, by rw [do_compress_hit p m st x hf hcm]⟩
      | false =>
          obtain ⟨c, hs⟩ := hsel
            ⌊p.segment_length_sec *
              (st.erase (compress_key p)).sampling_frequency⌋
          exact ⟨_, by rw [do_compress_stale p m st x hf hcm,
            do_compress_encode_of_ok p m _ _ c hs]⟩
  | none =>
      obtain ⟨c, hs⟩ := hsel ⌊p.segment_length_sec * st.sampling_frequency⌋
      exact ⟨_, by rw [do_compress_miss p m st hf,
        do_compress_encode_of_ok p m st _ c hs]⟩

theorem run_sweep_targets_spec (lowcut highcut : ℚ) (zstd_level zlib_level : Int)
    (measure : String → String → ℚ → Measurements) (alg cm : String)
    (ha : alg = "qfc" ∨ alg = "qtc") (hm : cm = "zstd" ∨ cm = "zlib") :
    ∀ (targets : List ℚ) (s : SweepState),
      ∃ s', run_sweep_targets lowcut highcut zstd_level zlib_level measure
          alg cm targets s = Except.ok s' ∧
        s'.calls = s.calls ++ (sweep_combos_targets alg cm targets).map
          (combo_params lowcut highcut zstd_level zlib_level) ∧
        s'.results.map record_combo = s.results.map record_combo ++
          (sweep_combos_targets alg cm targets).map (fun x => (x.1, x.2.1)) ∧
        s'.results.length = s.results.length + targets.length := by
  intro targets
  induction targets with
  | nil =>
      intro s
      exact ⟨s, rfl, by simp [sweep_combos_targets],
        by simp [sweep_combos_targets], by simp⟩
  | cons t rest ih =>
      intro s
      obtain ⟨a, hres⟩ := do_compress_result_ok
        (sweep_params lowcut highcut zstd_level zlib_level alg cm t)
        (measure alg cm t) s.store ha hm
      obtain ⟨s', hrun, hcalls, hrecs, hlen⟩ := ih
        { results := s.results ++
            [sweep_record lowcut highcut zstd_level zlib_level alg cm a]
          calls := s.calls ++
            [sweep_params lowcut highcut zstd_level zlib_level alg cm t]
          store := (do_compress
            (sweep_params lowcut highcut zstd_level zlib_level alg cm t)
            (measure alg cm t) s.store).store }
      refine ⟨s', ?_, ?_, ?_, ?_⟩
      · simp only [run_sweep_targets]
        rw [hres]
        exact hrun
      · rw [hcalls]
        simp [sweep_combos_targets, combo_params]
      · rw [hrecs]
        simp [sweep_combos_targets, sweep_record, record_combo]
      · rw [hlen]
        simp
        omega

theorem run_sweep_methods_spec (lowcut highcut : ℚ)
    (zstd_level zlib_level : Int)
    (measure : String → String → ℚ → Measurements) (alg : String)
    (ha : alg = "qfc" ∨ alg = "qtc") :
    ∀ (cms : List String), (∀ c ∈ cms, c = "zstd" ∨ c = "zlib") →
    ∀ (targets : List ℚ) (s : SweepState),
      ∃ s', run_sweep_methods lowcut highcut zstd_level zlib_level measure
          alg cms targets s = Except.ok s' ∧
        s'.calls = s.calls ++ (sweep_combos_methods alg cms targets).map
          (combo_params lowcut highcut zstd_level zlib_level) ∧
        s'.results.map record_combo = s.results.map record_combo ++
          (sweep_combos_methods alg cms targets).map (fun x => (x.1, x.2.1)) ∧
        s'.results.length = s.results.length + cms.length * targets.length := by
  intro cms
  induction cms with
  | nil =>
      intro _ targets s
      exact ⟨s, rfl, by simp [sweep_combos_methods],
        by simp [sweep_combos_methods], by simp⟩
  | cons c rest ih =>
      intro hall targets s
      have hc : c = "zstd" ∨ c = "zlib" := hall c (List.mem_cons_self c rest)
      obtain ⟨s1, hrun1, hcalls1, hrecs1, hlen1⟩ :=
        run_sweep_targets_spec lowcut highcut zstd_level zlib_level measure
          alg c ha hc targets s
      obtain ⟨s', hrun2, hcalls2, hrecs2, hlen2⟩ :=
        ih (fun x hx => hall x (List.mem_cons_of_mem c hx)) targets s1
      refine ⟨s', ?_, ?_, ?_, ?_⟩
      · simp only [run_sweep_methods]
        rw [hrun1]
        exact hrun2
      · rw [hcalls2, hcalls1]
        simp [sweep_combos_methods]
      · rw [hrecs2, hrecs1]
        simp [sweep_combos_methods]
      · rw [hlen2, hlen1]
        simp [List.length_cons]
        ring

theorem run_sweep_spec (lowcut highcut : ℚ) (zstd_level zlib_level : Int)
    (measure : String → String → ℚ → Measurements) :
    ∀ (algs : List String), (∀ a ∈ algs, a = "qfc" ∨ a = "qtc") →
    ∀ (cms : List String), (∀ c ∈ cms, c = "zstd" ∨ c = "zlib") →
    ∀ (targets : List ℚ) (s : SweepState),
      ∃ s', run_sweep lowcut highcut zstd_level zlib_level measure
          algs cms targets s = Except.ok s' ∧
        s'.calls = s.calls ++ (sweep_combinations algs cms targets).map
          (combo_params lowcut highcut zstd_level zlib_level) ∧
        s'.results.map record_combo = s.results.map record_combo ++
          (sweep_combinations algs cms targets).map (fun x => (x.1, x.2.1)) ∧
        s'.results.length = s.results.length +
          algs.length * (cms.length * targets.length) := by
  intro algs
  induction algs with
  | nil =>
      intro _ cms _ targets s
      exact ⟨s, rfl, by simp [sweep_combinations],
        by simp [sweep_combinations], by simp⟩
  | cons a rest ih =>
      intro hall cms hcms targets s
      have ha : a = "qfc" ∨ a = "qtc" := hall a (List.mem_cons_self a rest)
      obtain ⟨s1, hrun1, hcalls1, hrecs1, hlen1⟩ :=
        run_sweep_methods_spec lowcut highcut zstd_level zlib_level measure
          a ha cms hcms targets s
      obtain ⟨s', hrun2, hcalls2, hrecs2, hlen2⟩ :=
        ih (fun x hx => hall x (List.mem_cons_of_mem a hx)) cms hcms targets s1
      refine ⟨s', ?_, ?_, ?_, ?_⟩
      · simp only [run_sweep]
        rw [hrun1]
        exact hrun2
      · rw [hcalls2, hcalls1]
        simp [sweep_combinations]
      · rw [hrecs2, hrecs1]
        simp [sweep_combinations]
      · rw [hlen2, hlen1]
        simp [List.length_cons]
        ring

/-- C8: for every lists of algorithms drawn from `{qfc, qtc}`, coders drawn
from `{zstd, zlib}`, and target residual levels, the sweep of `__main__`
iterates the full cross-product (algorithm outermost, then coder, then
target level) for one fixed filter band and fixed effort levels: the
`do_compress` call log is exactly the cross-product in iteration order, each
call carries all three metric flags enabled, and the sweep collects exactly
`|algs| * |cms| * |targets|` Measurement Records, one per combination in
iteration order (each record carrying its combination's algorithm and
coder). -/
theorem sweep_cross_product (algs cms : List String) (targets : List ℚ)
    (lowcut highcut : ℚ) (zstd_level zlib_level : Int)
    (measure : String → String → ℚ → Measurements) (st0 : Store)
    (ha : ∀ a ∈ algs, a = "qfc" ∨ a = "qtc")
    (hm : ∀ c ∈ cms, c = "zstd" ∨ c = "zlib") :
    ∃ s, run_sweep lowcut highcut zstd_level zlib_level measure
        algs cms targets { results := [], calls := [], store := st0 } =
        Except.ok s ∧
      s.calls = (sweep_combinations algs cms targets).map
        (combo_params lowcut highcut zstd_level zlib_level) ∧
      (∀ p ∈ s.calls, p.estimate_compression_time = true ∧
        CompressParams.compute_compression_ratio p = true ∧
        p.compute_residual_stdev = true) ∧
      s.results.map record_combo =
        (sweep_combinations algs cms targets).map (fun x => (x.1, x.2.1)) ∧
      s.results.length = algs.length * cms.length * targets.length := by
  obtain ⟨s, hrun, hcalls, hrecs, hlen⟩ :=
    run_sweep_spec lowcut highcut zstd_level zlib_level measure algs ha
      cms hm targets { results := [], calls := [], store := st0 }
  refine ⟨s, hrun, by simpa using hcalls, ?_, by simpa using hrecs, ?_⟩
  · intro p hp
    rw [hcalls] at hp
    simp only [List.nil_append, List.mem_map] at hp
    obtain ⟨x, -, hx⟩ := hp
    rw [← hx]
    exact ⟨rfl, rfl, rfl⟩
  · rw [hlen]
    simp [Nat.mul_assoc]

/-- Witness for `sweep_cross_product`: the concrete sweep over algorithms
`{qfc, qtc}`, coders `{zstd, zlib}` and target levels `{0, 2}`, which
collects `2 * 2 * 2 = 8` records. -/
theorem sweep_cross_product_witness :
    ∃ s, run_sweep 300 6000 15 6 (fun _ _ _ => demo_meas)
        ["qfc", "qtc"] ["zstd", "zlib"] [0, 2]
        { results := [], calls := [], store := empty_store } =
        Except.ok s ∧
      s.calls = (sweep_combinations ["qfc", "qtc"] ["zstd", "zlib"]
        [0, 2]).map (combo_params 300 6000 15 6) ∧
      s.results.map record_combo =
        (sweep_combinations ["qfc", "qtc"] ["zstd", "zlib"] [0, 2]).map
          (fun x => (x.1, x.2.1)) ∧
      s.results.length = 8 := by
  obtain ⟨s, hrun, hcalls, hflags, hrecs, hlen⟩ :=
    sweep_cross_product ["qfc", "qtc"] ["zstd", "zlib"] [0, 2] 300 6000 15 6
      (fun _ _ _ => demo_meas) empty_store (by decide) (by decide)
  exact ⟨s, hrun, hcalls, hrecs, by rw [hlen]; rfl⟩

end QfcBenchmark
